import Mathlib

/-!
Shallow embedding of the core logic of `src/index.js` of the
linear-mcp-server repository: the `RateLimiter` class, the query parsing
functions (`parseQuery`, `parseQueryPart`, `parsePriorityFilter`) together
with the tokenizing regular expression, the `read-resource` URI handling,
and the `search-issues` routing between the assigned-issues path and the
general issues path.  Timestamps and JS numbers are modelled as `Int`,
JS strings as Lean strings or lists of characters.  Thrown JS exceptions
are modelled with `Except String`.
-/

namespace LinearMcp

/-! ## Rate limiter (src/index.js lines 14-47) -/

/-- The `this.metrics` record set up in the `RateLimiter` constructor
(lines 18-24). -/
structure RLMetrics where
  totalRequests : Nat
  requestsInLastHour : Nat
  averageRequestTime : Nat
  queueLength : Nat
  lastRequestTime : Int
deriving DecidableEq, Repr

/-- The mutable state of a `RateLimiter` instance: the ceiling
`this.requestsPerHour`, the timestamp window `this.requests`, and the
metrics record. -/
structure RateLimiter where
  requestsPerHour : Nat
  requests : List Int
  metrics : RLMetrics
deriving DecidableEq, Repr

/-- `RateLimiter.new t0` models `new RateLimiter()` executed when
`Date.now()` returns `t0` (constructor, lines 15-25). -/
def RateLimiter.new (t0 : Int) : RateLimiter :=
  { requestsPerHour := 1000
    requests := []
    metrics :=
      { totalRequests := 0
        requestsInLastHour := 0
        averageRequestTime := 0
        queueLength := 0
        lastRequestTime := t0 } }

/-- `checkLimit` (lines 27-39) executed when `Date.now()` returns `now`.
The first component is the outcome (`throw` is modelled by `.error`), the
second the state of the limiter afterwards.  Note that the pruning
assignment to `this.requests` happens before the throw, so the pruned
window persists even on failure. -/
def RateLimiter.checkLimit (rl : RateLimiter) (now : Int) :
    Except String Unit × RateLimiter :=
  let requests := rl.requests.filter fun t => decide (now - t < 3600000)
  if rl.requestsPerHour ≤ requests.length then
    (.error "Rate limit exceeded", { rl with requests := requests })
  else
    let requests2 := requests ++ [now]
    (.ok (),
      { rl with
        requests := requests2
        metrics :=
          { rl.metrics with
            totalRequests := rl.metrics.totalRequests + 1
            requestsInLastHour := requests2.length
            lastRequestTime := now } })

/-- The object returned by `getMetrics()` (lines 41-46): a spread of
`this.metrics` plus the derived `remainingRequests` field. -/
structure MetricsSnapshot where
  totalRequests : Nat
  requestsInLastHour : Nat
  averageRequestTime : Nat
  queueLength : Nat
  lastRequestTime : Int
  remainingRequests : Int
deriving DecidableEq, Repr

def RateLimiter.getMetrics (rl : RateLimiter) : MetricsSnapshot :=
  { totalRequests := rl.metrics.totalRequests
    requestsInLastHour := rl.metrics.requestsInLastHour
    averageRequestTime := rl.metrics.averageRequestTime
    queueLength := rl.metrics.queueLength
    lastRequestTime := rl.metrics.lastRequestTime
    remainingRequests :=
      (rl.requestsPerHour : Int) - (rl.metrics.requestsInLastHour : Int) }

/-- Whether a `checkLimit` outcome was a successful admit. -/
def isOkB : Except String Unit → Bool
  | .ok _ => true
  | .error _ => false

/-- Run a sequence of `checkLimit` calls, one per clock value in the
list, threading the limiter state. -/
def runAll (rl : RateLimiter) : List Int → RateLimiter
  | [] => rl
  | t :: ts => runAll (rl.checkLimit t).2 ts

/-- The clock values of the admitted (successful) calls of a run, in
call order. -/
def admits (rl : RateLimiter) : List Int → List Int
  | [] => []
  | t :: ts =>
    (if isOkB (rl.checkLimit t).1 then [t] else []) ++ admits (rl.checkLimit t).2 ts

/-- The clock value of the last call of `t :: ts`. -/
def lastTime (t : Int) : List Int → Int
  | [] => t
  | t2 :: ts => lastTime t2 ts

theorem checkLimit_requests (rl : RateLimiter) (now : Int) :
    ((rl.checkLimit now).2).requests
      = rl.requests.filter (fun t => decide (now - t < 3600000))
        ++ (if isOkB (rl.checkLimit now).1 then [now] else []) := by
  unfold RateLimiter.checkLimit
  by_cases h :
      rl.requestsPerHour ≤ (rl.requests.filter fun t => decide (now - t < 3600000)).length <;>
    simp [h, isOkB]

theorem checkLimit_totalRequests (rl : RateLimiter) (now : Int) :
    ((rl.checkLimit now).2).metrics.totalRequests
      = rl.metrics.totalRequests + (if isOkB (rl.checkLimit now).1 then 1 else 0) := by
  unfold RateLimiter.checkLimit
  by_cases h :
      rl.requestsPerHour ≤ (rl.requests.filter fun t => decide (now - t < 3600000)).length <;>
    simp [h, isOkB]

theorem lastTime_ge (ts : List Int) : ∀ t : Int, List.Chain' (· ≤ ·) (t :: ts) →
    t ≤ lastTime t ts := by
  induction ts with
  | nil => intro t _; simp [lastTime]
  | cons t2 ts ih =>
    intro t h
    rw [List.chain'_cons] at h
    exact le_trans h.1 (ih t2 h.2)

theorem admits_sublist (ts : List Int) : ∀ rl : RateLimiter,
    List.Sublist (admits rl ts) ts := by
  induction ts with
  | nil => intro rl; simp [admits]
  | cons t ts ih =>
    intro rl
    unfold admits
    by_cases h : isOkB (rl.checkLimit t).1
    · simpa [h] using List.Sublist.cons₂ t (ih (rl.checkLimit t).2)
    · simpa [h] using List.Sublist.cons t (ih (rl.checkLimit t).2)

theorem runAll_requests (ts : List Int) : ∀ (t : Int) (rl : RateLimiter),
    List.Chain' (· ≤ ·) (t :: ts) →
    (runAll rl (t :: ts)).requests
      = (rl.requests ++ admits rl (t :: ts)).filter
          (fun x => decide (lastTime t ts - x < 3600000)) := by
  induction ts with
  | nil =>
    intro t rl _
    simp only [runAll, admits, lastTime, List.append_nil, List.filter_append]
    rw [checkLimit_requests]
    congr 1
    by_cases h : isOkB (rl.checkLimit t).1 <;> simp [h]
  | cons t2 ts ih =>
    intro t rl hch
    rw [List.chain'_cons] at hch
    have hstep : (runAll rl (t :: t2 :: ts)) = runAll (rl.checkLimit t).2 (t2 :: ts) := rfl
    rw [hstep, ih t2 (rl.checkLimit t).2 hch.2]
    have hadm : admits rl (t :: t2 :: ts)
        = (if isOkB (rl.checkLimit t).1 then [t] else [])
          ++ admits (rl.checkLimit t).2 (t2 :: ts) := rfl
    rw [hadm, checkLimit_requests]
    have hlast : lastTime t (t2 :: ts) = lastTime t2 ts := rfl
    rw [hlast]
    have htL : t ≤ lastTime t2 ts :=
      le_trans hch.1 (lastTime_ge ts t2 hch.2)
    simp only [List.filter_append, List.append_assoc]
    congr 1
    rw [List.filter_filter]
    apply List.filter_congr
    intro a _
    by_cases h1 : lastTime t2 ts - a < 3600000
    · have h2 : t - a < 3600000 := by omega
      simp [h1, h2]
    · simp [h1]

/-- C1: at each `checkLimit` call, if the count of recorded timestamps within
the trailing 3,600,000 ms is at least the ceiling, the call fails with the
rate-limit error, `now` is not appended to the window, and the all-time
counter is unchanged; otherwise it succeeds, appends `now`, and increments
the counter. -/
theorem checkLimit_spec (rl : RateLimiter) (now : Int) :
    ((rl.requestsPerHour ≤ (rl.requests.filter fun t => decide (now - t < 3600000)).length →
        (rl.checkLimit now).1 = .error "Rate limit exceeded" ∧
        (rl.checkLimit now).2.requests
          = rl.requests.filter (fun t => decide (now - t < 3600000)) ∧
        (rl.checkLimit now).2.metrics.totalRequests = rl.metrics.totalRequests) ∧
      ((rl.requests.filter fun t => decide (now - t < 3600000)).length < rl.requestsPerHour →
        (rl.checkLimit now).1 = .ok () ∧
        (rl.checkLimit now).2.requests
          = rl.requests.filter (fun t => decide (now - t < 3600000)) ++ [now] ∧
        (rl.checkLimit now).2.metrics.totalRequests = rl.metrics.totalRequests + 1)) := by
  constructor
  · intro h
    simp [RateLimiter.checkLimit, h]
  · intro h
    have h2 : ¬ rl.requestsPerHour ≤ (rl.requests.filter fun t => decide (now - t < 3600000)).length := by
      omega
    simp [RateLimiter.checkLimit, h2]

theorem checkLimit_spec_witness :
    (((RateLimiter.new 0).checkLimit 5).1 = .ok () ∧
      ((RateLimiter.new 0).checkLimit 5).2.requests = [5] ∧
      ((RateLimiter.new 0).checkLimit 5).2.metrics.totalRequests = 1) ∧
    ((({ requestsPerHour := 0, requests := [], metrics :=
        { totalRequests := 7, requestsInLastHour := 0, averageRequestTime := 0,
          queueLength := 0, lastRequestTime := 0 } } : RateLimiter).checkLimit 5).1
        = .error "Rate limit exceeded" ∧
      (({ requestsPerHour := 0, requests := [], metrics :=
        { totalRequests := 7, requestsInLastHour := 0, averageRequestTime := 0,
          queueLength := 0, lastRequestTime := 0 } } : RateLimiter).checkLimit 5).2.requests = [] ∧
      (({ requestsPerHour := 0, requests := [], metrics :=
        { totalRequests := 7, requestsInLastHour := 0, averageRequestTime := 0,
          queueLength := 0, lastRequestTime := 0 } } : RateLimiter).checkLimit
          5).2.metrics.totalRequests = 7) :=
  ⟨(checkLimit_spec (RateLimiter.new 0) 5).2 (by decide),
   (checkLimit_spec _ 5).1 (by decide)⟩

/-- C2: for every run of `checkLimit` calls under a monotonically
non-decreasing clock, the window after the last call holds exactly the
timestamps of the admitted calls that lie within 3,600,000 ms of the last
clock value, and the window is monotonically non-decreasing.  Since every
prefix of a non-decreasing run is itself such a run, instantiating the
theorem at each prefix gives the invariant immediately after every admit
attempt. -/
theorem rateWindow_trailing (t0 t : Int) (ts : List Int)
    (h : List.Chain' (· ≤ ·) (t :: ts)) :
    (runAll (RateLimiter.new t0) (t :: ts)).requests
      = (admits (RateLimiter.new t0) (t :: ts)).filter
          (fun x => decide (lastTime t ts - x < 3600000))
    ∧ List.Pairwise (· ≤ ·) (runAll (RateLimiter.new t0) (t :: ts)).requests := by
  have hreq := runAll_requests ts t (RateLimiter.new t0) h
  have hnil : (RateLimiter.new t0).requests = [] := rfl
  rw [hnil] at hreq
  simp only [List.nil_append] at hreq
  refine ⟨hreq, ?_⟩
  rw [hreq]
  have hpw : List.Pairwise (· ≤ ·) (t :: ts) :=
    List.chain'_iff_pairwise.mp h
  have hsub := admits_sublist (t :: ts) (RateLimiter.new t0)
  exact (List.Pairwise.sublist hsub hpw).filter _

theorem rateWindow_trailing_witness :
    (runAll (RateLimiter.new 0) (0 :: [3600000])).requests
      = (admits (RateLimiter.new 0) (0 :: [3600000])).filter
          (fun x => decide (lastTime 0 [3600000] - x < 3600000))
    ∧ List.Pairwise (· ≤ ·) (runAll (RateLimiter.new 0) (0 :: [3600000])).requests :=
  rateWindow_trailing 0 0 [3600000]
    (by norm_num [List.chain'_cons, List.chain'_singleton])

/-- C10: on a freshly constructed rate limiter, before any admit,
`getMetrics()` reports 0 total requests, 0 requests in the last hour, the
full ceiling of 1000 remaining requests, and a `lastRequestTime` equal to
the clock value at construction time. -/
theorem getMetrics_initial (t0 : Int) :
    (RateLimiter.new t0).getMetrics
      = { totalRequests := 0
          requestsInLastHour := 0
          averageRequestTime := 0
          queueLength := 0
          lastRequestTime := t0
          remainingRequests := 1000 } := rfl

/-! ## JS string and character-class helpers -/

/-- Code points of the ECMAScript character class backslash-s
(WhiteSpace plus LineTerminator). -/
def jsSpaceCodes : List Nat :=
  [9, 10, 11, 12, 13, 32, 160, 0x1680, 0x2000, 0x2001, 0x2002, 0x2003,
   0x2004, 0x2005, 0x2006, 0x2007, 0x2008, 0x2009, 0x200A, 0x2028, 0x2029,
   0x202F, 0x205F, 0x3000, 0xFEFF]

def isJsSpace (c : Char) : Bool := decide (c.toNat ∈ jsSpaceCodes)

/-- ECMAScript LineTerminator characters: not matched by the regex dot
when the dotAll flag is absent. -/
def isLineTerm (c : Char) : Bool :=
  decide (c.toNat = 10 ∨ c.toNat = 13 ∨ c.toNat = 0x2028 ∨ c.toNat = 0x2029)

def charDigit (c : Char) : Bool := decide (48 ≤ c.toNat ∧ c.toNat ≤ 57)

def charHex (c : Char) : Bool :=
  decide ((48 ≤ c.toNat ∧ c.toNat ≤ 57) ∨ (65 ≤ c.toNat ∧ c.toNat ≤ 70) ∨
    (97 ≤ c.toNat ∧ c.toNat ≤ 102))

def charOct (c : Char) : Bool := decide (48 ≤ c.toNat ∧ c.toNat ≤ 55)

def charBin (c : Char) : Bool := decide (c.toNat = 48 ∨ c.toNat = 49)

/-! ## The tokenizing regular expression of parseQuery (line 329)

The call is `query.match(...)` with the global regular expression whose
three alternatives are, in order: non-space run, colon, quoted value;
colon-free key, colon, non-space value; plain non-space run. -/

/-- Length of the maximal run of non-whitespace characters at the head. -/
def runLen (l : List Char) : Nat :=
  (l.takeWhile fun c => !(isJsSpace c)).length

/-- Match of one-or-more non-quote characters followed by a closing quote
at the head of `rest`; returns the number of characters consumed. -/
def quotedLen (rest : List Char) : Option Nat :=
  let content := rest.takeWhile fun c => !(decide (c = '"'))
  if content.isEmpty then none
  else if rest.get? content.length = some '"' then some (content.length + 1)
  else none

/-- Backtracking search for the first alternative: the greedy non-space
run first tries the longest candidate, so the candidate length counts
down from `runLen l - 1`.  In the case `j + 1` the candidate key part has
`j + 1` characters, the colon sits at index `j + 1` and the opening quote
at index `j + 2`.  Returns the total matched length at the head of `l`. -/
def alt1From (l : List Char) : Nat → Option Nat
  | 0 => none
  | j + 1 =>
    if l.get? (j + 1) = some ':' ∧ l.get? (j + 2) = some '"' then
      match quotedLen (l.drop (j + 3)) with
      | some q => some (j + 3 + q)
      | none => alt1From l j
    else alt1From l j

/-- Second alternative: colon-free key, colon, non-space value. -/
def alt2Len (l : List Char) : Option Nat :=
  let key := l.takeWhile fun c => !(isJsSpace c) && !(decide (c = ':'))
  if key.isEmpty then none
  else if l.get? key.length = some ':' then
    let val := (l.drop (key.length + 1)).takeWhile fun c => !(isJsSpace c)
    if val.isEmpty then none else some (key.length + 1 + val.length)
  else none

/-- Third alternative: a plain non-space run. -/
def alt3Len (l : List Char) : Option Nat :=
  if runLen l = 0 then none else some (runLen l)

/-- Leftmost-alternative match length at the head of `l`. -/
def tokLen (l : List Char) : Option Nat :=
  match alt1From l (runLen l - 1) with
  | some n => some n
  | none =>
    match alt2Len l with
    | some n => some n
    | none => alt3Len l

/-- Global scan of the tokenizing regular expression: at each position try
to match; on success consume the match (matches here are never empty),
otherwise advance one character.  Structural recursion on a fuel argument
the scan cannot exhaust, because every step consumes at least one
character. -/
def jsTokensF : Nat → List Char → List (List Char)
  | 0, _ => []
  | _, [] => []
  | fuel + 1, c :: cs =>
    match tokLen (c :: cs) with
    | some n => (c :: cs).take n :: jsTokensF fuel ((c :: cs).drop (max n 1))
    | none => jsTokensF fuel cs

def jsTokens (l : List Char) : List (List Char) := jsTokensF l.length l

/-! ## Splitting a token into key and value (lines 342-343) -/

/-- JS `String.prototype.split` with a single-character separator. -/
def splitCh (sep : Char) : List Char → List (List Char)
  | [] => [[]]
  | c :: cs =>
    if c = sep then [] :: splitCh sep cs
    else
      match splitCh sep cs with
      | h :: t => (c :: h) :: t
      | [] => [[c]]

/-- The regex replace stripping a fully quoted value (line 343): the
pattern is quote, dot-star captured, quote, anchored at both ends; the
dot does not match line terminators, so a candidate containing one is
left unchanged. -/
def stripQuotes (v : List Char) : List Char :=
  if 2 ≤ v.length ∧ v.head? = some '"' ∧ v.getLast? = some '"' ∧
      (v.drop 1).dropLast.all (fun c => !(isLineTerm c)) then
    (v.drop 1).dropLast
  else v

/-- The destructured `key` of a token. -/
def tokKey (t : List Char) : String := String.mk ((splitCh ':' t).headD [])

/-- The destructured `value` of a token; `none` models JS `undefined`. -/
def tokValue (t : List Char) : Option String :=
  ((splitCh ':' t).get? 1).map String.mk

/-- `cleanValue`: the value with a surrounding quote pair stripped. -/
def tokCleanValue (t : List Char) : Option String :=
  ((splitCh ':' t).get? 1).map fun v => String.mk (stripQuotes v)

/-! ## Filter objects -/

/-- The two-disjunct free-text predicate assigned to `filter.or`
(lines 385-388): title-contains and description-contains on the same
fragment. -/
structure FreeTextOr where
  titleContains : String
  descriptionContains : String
deriving DecidableEq, Repr

/-- The value of `filter.state`. -/
inductive StateFilter where
  /-- the default exclusion of completed and canceled state types
  (lines 331-335) -/
  | typeNin
  /-- an explicit name-equality check (line 375); the value is `none`
  when the token had no value (JS `undefined`) -/
  | nameEq (v : Option String)
  /-- the empty object left if the delete at line 352 removed the only
  field (unreachable, kept for fidelity) -/
  | emptyState
deriving DecidableEq, Repr

structure Filter where
  state : StateFilter
  team : Option (Option String)
  labels : Option (Option String)
  orClause : Option FreeTextOr
deriving DecidableEq, Repr

/-- `filter.priority` values produced by `parsePriorityFilter`:
an equality on one ordinal or the set containing 1 and 2. -/
inductive PriorityFilter where
  | eq (n : Int)
  | in12
deriving DecidableEq, Repr

/-! ## JS number conversions used by parsePriorityFilter -/

/-- Exponent part of a decimal literal (possibly empty). -/
def expOk (l : List Char) : Bool :=
  if l.isEmpty then true
  else if l.head? = some 'e' ∨ l.head? = some 'E' then
    let r := if l.tail.head? = some '+' ∨ l.tail.head? = some '-' then
      l.tail.tail else l.tail
    !r.isEmpty && r.all charDigit
  else false

/-- Unsigned decimal literal: digits, optional dot and digits, optional
exponent; or dot and digits and optional exponent. -/
def decLit (l : List Char) : Bool :=
  let ds := l.takeWhile charDigit
  let r := l.drop ds.length
  if ds.isEmpty then
    if r.head? = some '.' then
      let ds2 := r.tail.takeWhile charDigit
      !ds2.isEmpty && expOk (r.tail.drop ds2.length)
    else false
  else
    if r.head? = some '.' then
      let ds2 := r.tail.takeWhile charDigit
      expOk (r.tail.drop ds2.length)
    else expOk r

def infOrDec (l : List Char) : Bool :=
  decide (l = "Infinity".toList) || decLit l

/-- Whether a trimmed nonempty string is a numeric string literal for the
JS ToNumber conversion. -/
def strNumeric (l : List Char) : Bool :=
  if l.head? = some '+' ∨ l.head? = some '-' then infOrDec l.tail
  else if l.head? = some '0' ∧ (l.get? 1 = some 'x' ∨ l.get? 1 = some 'X') then
    !(l.drop 2).isEmpty && (l.drop 2).all charHex
  else if l.head? = some '0' ∧ (l.get? 1 = some 'o' ∨ l.get? 1 = some 'O') then
    !(l.drop 2).isEmpty && (l.drop 2).all charOct
  else if l.head? = some '0' ∧ (l.get? 1 = some 'b' ∨ l.get? 1 = some 'B') then
    !(l.drop 2).isEmpty && (l.drop 2).all charBin
  else infOrDec l

def trimJs (l : List Char) : List Char :=
  ((l.dropWhile isJsSpace).reverse.dropWhile isJsSpace).reverse

/-- `isNaN` applied to a string: NaN-ness of the ToNumber conversion
(empty or all-space strings convert to zero, hence are not NaN). -/
def jsIsNaNStr (s : String) : Bool :=
  let t := trimJs s.toList
  if t.isEmpty then false else !(strNumeric t)

def digitsToNat (l : List Char) : Nat :=
  l.foldl (fun a c => 10 * a + (c.toNat - 48)) 0

def parseIntDigits (sign : Int) (l : List Char) : Option Int :=
  let ds := l.takeWhile charDigit
  if ds.isEmpty then none else some (sign * (digitsToNat ds : Int))

/-- `parseInt` with radix 10: leading whitespace skipped, optional sign,
longest leading digit run; `none` models NaN. -/
def jsParseInt10 (s : String) : Option Int :=
  let l := s.toList.dropWhile isJsSpace
  if l.head? = some '+' then parseIntDigits 1 l.tail
  else if l.head? = some '-' then parseIntDigits (-1) l.tail
  else parseIntDigits 1 l

def asciiLowerChar (c : Char) : Char :=
  if 65 ≤ c.toNat ∧ c.toNat ≤ 90 then Char.ofNat (c.toNat + 32) else c

/-- `toLowerCase` restricted to ASCII letters, which decides all the
comparisons against the lowercase priority words. -/
def asciiLower (s : String) : String := String.mk (s.toList.map asciiLowerChar)

/-- The PRIORITY_MAP object literal (lines 396-402) as a finite map. -/
def priorityMap (s : String) : Option Int :=
  if s = "no" then some 0
  else if s = "urgent" then some 1
  else if s = "high" then some 2
  else if s = "medium" then some 3
  else if s = "low" then some 4
  else none

/-- `parsePriorityFilter` (lines 395-424).  With an undefined argument
(from a bare `priority` token) the numeric branch is skipped because
`isNaN` of undefined is true, and calling `toLowerCase` on undefined then
throws a TypeError, modelled by `.error`. -/
def parsePriorityFilter : Option String → Except String (Option PriorityFilter)
  | none => .error "TypeError: cannot read toLowerCase of undefined"
  | some v =>
    if jsIsNaNStr v = false then
      match jsParseInt10 v with
      | some n =>
        if 0 ≤ n ∧ n ≤ 4 then
          if n = 2 then .ok (some .in12) else .ok (some (.eq n))
        else .ok none
      | none => .ok none
    else
      let lowercaseValue := asciiLower v
      if lowercaseValue = "high" then .ok (some .in12)
      else
        match priorityMap lowercaseValue with
        | some n => .ok (some (.eq n))
        | none => .ok none

/-! ## parseQueryPart and parseQuery (lines 328-393) -/

structure PartOut where
  isMyIssuesQuery : Bool := false
  priorityFilter : Option PriorityFilter := none
  hasExplicitStateFilter : Bool := false
deriving DecidableEq, Repr

/-- `parseQueryPart` (lines 358-393): one switch step over a token key;
returns the flag record and the updated filter.  The guard of the default
branch tests the key for a colon, but the key comes from a split on the
colon and never contains one, so the guard never suppresses the free-text
assignment. -/
def parseQueryPart (key : String) (cleanValue : Option String) (filter : Filter) :
    Except String (PartOut × Filter) :=
  if key = "assignee" then
    .ok ({ isMyIssuesQuery := decide (cleanValue = some "@me") }, filter)
  else if key = "priority" then
    match parsePriorityFilter cleanValue with
    | .error e => .error e
    | .ok pf => .ok ({ priorityFilter := pf }, filter)
  else if key = "state" ∨ key = "status" then
    .ok ({ hasExplicitStateFilter := true },
      { filter with state := .nameEq cleanValue })
  else if key = "team" then
    .ok ({}, { filter with team := some cleanValue })
  else if key = "label" then
    .ok ({}, { filter with labels := some cleanValue })
  else
    if key.toList.contains ':' then .ok ({}, filter)
    else .ok ({}, { filter with orClause := some ⟨key, key⟩ })

/-- The loop of parseQuery (lines 341-348), threading the filter and the
three flags; a later truthy priority filter or flag wins over an earlier
one. -/
def parseLoop : List (List Char) → Filter → Bool → Option PriorityFilter → Bool →
    Except String (Filter × Bool × Option PriorityFilter × Bool)
  | [], f, my, pf, hex => .ok (f, my, pf, hex)
  | t :: ts, f, my, pf, hex =>
    match parseQueryPart (tokKey t) (tokCleanValue t) f with
    | .error e => .error e
    | .ok (out, f2) =>
      parseLoop ts f2 (out.isMyIssuesQuery || my)
        (out.priorityFilter.orElse fun _ => pf)
        (out.hasExplicitStateFilter || hex)

/-- `delete filter.state.type` (line 352). -/
def deleteStateType : StateFilter → StateFilter
  | .typeNin => .emptyState
  | s => s

structure ParseResult where
  filter : Filter
  isMyIssuesQuery : Bool
  priorityFilter : Option PriorityFilter
deriving DecidableEq, Repr

/-- The filter literal initialised at lines 330-336. -/
def initFilter : Filter :=
  { state := .typeNin, team := none, labels := none, orClause := none }

/-- `parseQuery` (lines 328-356). -/
def parseQuery (q : String) : Except String ParseResult :=
  match parseLoop (jsTokens q.toList) initFilter false none false with
  | .error e => .error e
  | .ok (f, my, pf, hex) =>
    .ok { filter := if hex then { f with state := deleteStateType f.state } else f
          isMyIssuesQuery := my
          priorityFilter := pf }

/-! ## Characterizations of the parseQuery loop -/

/-- The keys recognized by the parseQueryPart switch. -/
def specialKeys : List String :=
  ["assignee", "priority", "state", "status", "team", "label"]

/-- The explicit state value a token contributes, when its key is state
or status. -/
def stateTokVal (t : List Char) : Option (Option String) :=
  if tokKey t = "state" ∨ tokKey t = "status" then some (tokCleanValue t)
  else none

/-- The free-text fragment a token contributes: its key, whenever the key
is none of the recognized filter keys (the colon guard of the source is
kept, although it can never fire on a split key). -/
def freeKeyOf (t : List Char) : Option String :=
  if tokKey t ∈ specialKeys then none
  else if (tokKey t).toList.contains ':' then none
  else some (tokKey t)

/-- The contribution of the last token of the list for which `f` is
defined; later tokens win. -/
def lastHit (f : List Char → Option α) : List (List Char) → Option α
  | [] => none
  | t :: ts => (lastHit f ts).orElse fun _ => f t

/-- Whether a token sets the my-issues flag. -/
def isMyTok (t : List Char) : Bool :=
  decide (tokKey t = "assignee") && decide (tokCleanValue t = some "@me")

theorem parseLoop_spec (toks : List (List Char)) :
    ∀ (f : Filter) (my : Bool) (pf : Option PriorityFilter) (hex : Bool)
      (f2 : Filter) (my2 : Bool) (pf2 : Option PriorityFilter) (hex2 : Bool),
      parseLoop toks f my pf hex = .ok (f2, my2, pf2, hex2) →
      f2.state = (match lastHit stateTokVal toks with
        | none => f.state
        | some v => .nameEq v) ∧
      f2.orClause = (match lastHit freeKeyOf toks with
        | none => f.orClause
        | some k => some ⟨k, k⟩) ∧
      my2 = (my || toks.any isMyTok) ∧
      hex2 = (hex || (lastHit stateTokVal toks).isSome) := by
  induction toks with
  | nil =>
    intro f my pf hex f2 my2 pf2 hex2 h
    simp only [parseLoop, Except.ok.injEq, Prod.mk.injEq] at h
    obtain ⟨rfl, rfl, rfl, rfl⟩ := h
    simp [lastHit]
  | cons t ts ih =>
    intro f my pf hex f2 my2 pf2 hex2 h
    simp only [parseLoop] at h
    have hstate : lastHit stateTokVal (t :: ts)
        = (lastHit stateTokVal ts).orElse fun _ => stateTokVal t := rfl
    have hfree : lastHit freeKeyOf (t :: ts)
        = (lastHit freeKeyOf ts).orElse fun _ => freeKeyOf t := rfl
    have hany : (t :: ts).any isMyTok = (isMyTok t || ts.any isMyTok) := by
      simp
    by_cases hk1 : tokKey t = "assignee"
    · simp only [parseQueryPart, hk1, reduceIte] at h
      obtain ⟨h1, h2, h3, h4⟩ := ih _ _ _ _ _ _ _ _ h
      have hsv : stateTokVal t = none := by simp [stateTokVal, hk1]
      have hfv : freeKeyOf t = none := by simp [freeKeyOf, hk1, specialKeys]
      have hmv : isMyTok t = decide (tokCleanValue t = some "@me") := by
        simp [isMyTok, hk1]
      refine ⟨?_, ?_, ?_, ?_⟩
      · rw [h1, hstate, hsv]
        cases lastHit stateTokVal ts <;> simp
      · rw [h2, hfree, hfv]
        cases lastHit freeKeyOf ts <;> simp
      · rw [h3, hany, hmv]
        cases my <;> cases ts.any isMyTok <;>
          cases hd : decide (tokCleanValue t = some "@me") <;> simp [hd]
      · rw [h4, hstate, hsv]
        cases hls : lastHit stateTokVal ts <;> cases hex <;> simp [hls]
    · by_cases hk2 : tokKey t = "priority"
      · rcases hpf : parsePriorityFilter (tokCleanValue t) with e | pfv
        · simp [parseQueryPart, hk1, hk2, hpf] at h
        · simp only [parseQueryPart, hk1, hk2, hpf, reduceIte] at h
          obtain ⟨h1, h2, h3, h4⟩ := ih _ _ _ _ _ _ _ _ h
          have hsv : stateTokVal t = none := by simp [stateTokVal, hk2]
          have hfv : freeKeyOf t = none := by simp [freeKeyOf, hk2, specialKeys]
          have hmv : isMyTok t = false := by simp [isMyTok, hk1]
          refine ⟨?_, ?_, ?_, ?_⟩
          · rw [h1, hstate, hsv]
            cases lastHit stateTokVal ts <;> simp
          · rw [h2, hfree, hfv]
            cases lastHit freeKeyOf ts <;> simp
          · rw [h3, hany, hmv]
            simp
          · rw [h4, hstate, hsv]
            cases hls : lastHit stateTokVal ts <;> cases hex <;> simp [hls]
      · by_cases hk3 : tokKey t = "state" ∨ tokKey t = "status"
        · simp only [parseQueryPart, hk1, hk2, hk3, reduceIte] at h
          obtain ⟨h1, h2, h3, h4⟩ := ih _ _ _ _ _ _ _ _ h
          have hsv : stateTokVal t = some (tokCleanValue t) := by
            simp [stateTokVal, hk3]
          have hfv : freeKeyOf t = none := by
            rcases hk3 with hk3 | hk3 <;> simp [freeKeyOf, hk3, specialKeys]
          have hmv : isMyTok t = false := by simp [isMyTok, hk1]
          refine ⟨?_, ?_, ?_, ?_⟩
          · rw [h1, hstate, hsv]
            cases lastHit stateTokVal ts <;> simp
          · rw [h2, hfree, hfv]
            cases lastHit freeKeyOf ts <;> simp
          · rw [h3, hany, hmv]
            simp
          · rw [h4, hstate, hsv]
            cases hls : lastHit stateTokVal ts <;> simp [hls]
        · have hk3a : ¬ tokKey t = "state" := fun hc => hk3 (Or.inl hc)
          have hk3b : ¬ tokKey t = "status" := fun hc => hk3 (Or.inr hc)
          have hsv : stateTokVal t = none := by
            simp [stateTokVal, hk3a, hk3b]
          have hmv : isMyTok t = false := by simp [isMyTok, hk1]
          by_cases hk4 : tokKey t = "team"
          · simp only [parseQueryPart, hk1, hk2, hk3, hk4, reduceIte] at h
            obtain ⟨h1, h2, h3, h4⟩ := ih _ _ _ _ _ _ _ _ h
            have hfv : freeKeyOf t = none := by simp [freeKeyOf, hk4, specialKeys]
            refine ⟨?_, ?_, ?_, ?_⟩
            · rw [h1, hstate, hsv]
              cases lastHit stateTokVal ts <;> simp
            · rw [h2, hfree, hfv]
              cases lastHit freeKeyOf ts <;> simp
            · rw [h3, hany, hmv]
              simp
            · rw [h4, hstate, hsv]
              cases hls : lastHit stateTokVal ts <;> cases hex <;> simp [hls]
          · by_cases hk5 : tokKey t = "label"
            · simp only [parseQueryPart, hk1, hk2, hk3, hk4, hk5, reduceIte] at h
              obtain ⟨h1, h2, h3, h4⟩ := ih _ _ _ _ _ _ _ _ h
              have hfv : freeKeyOf t = none := by
                simp [freeKeyOf, hk5, specialKeys]
              refine ⟨?_, ?_, ?_, ?_⟩
              · rw [h1, hstate, hsv]
                cases lastHit stateTokVal ts <;> simp
              · rw [h2, hfree, hfv]
                cases lastHit freeKeyOf ts <;> simp
              · rw [h3, hany, hmv]
                simp
              · rw [h4, hstate, hsv]
                cases hls : lastHit stateTokVal ts <;> cases hex <;> simp [hls]
            · have hnotin : tokKey t ∉ specialKeys := by
                simp [specialKeys, hk1, hk2, hk3a, hk3b, hk4, hk5]
              by_cases hc : (tokKey t).toList.contains ':'
              · have hcm : ':' ∈ (tokKey t).data := by simpa using hc
                simp [parseQueryPart, hk1, hk2, hk3, hk4, hk5, hcm] at h
                obtain ⟨h1, h2, h3, h4⟩ := ih _ _ _ _ _ _ _ _ h
                have hfv : freeKeyOf t = none := by
                  simp [freeKeyOf, hnotin, hcm]
                refine ⟨?_, ?_, ?_, ?_⟩
                · rw [h1, hstate, hsv]
                  cases lastHit stateTokVal ts <;> simp
                · rw [h2, hfree, hfv]
                  cases lastHit freeKeyOf ts <;> simp
                · rw [h3, hany, hmv]
                  simp
                · rw [h4, hstate, hsv]
                  cases hls : lastHit stateTokVal ts <;> cases hex <;> simp [hls]
              · have hcm : ':' ∉ (tokKey t).data := by simpa using hc
                simp [parseQueryPart, hk1, hk2, hk3, hk4, hk5, hcm] at h
                obtain ⟨h1, h2, h3, h4⟩ := ih _ _ _ _ _ _ _ _ h
                have hfv : freeKeyOf t = some (tokKey t) := by
                  simp [freeKeyOf, hnotin, hcm]
                refine ⟨?_, ?_, ?_, ?_⟩
                · rw [h1, hstate, hsv]
                  cases lastHit stateTokVal ts <;> simp
                · rw [h2, hfree, hfv]
                  cases lastHit freeKeyOf ts <;> simp
                · rw [h3, hany, hmv]
                  simp
                · rw [h4, hstate, hsv]
                  cases hls : lastHit stateTokVal ts <;> cases hex <;> simp [hls]

/-! ## The search-issues handler routing (lines 169-227) -/

/-- The upstream call issued by the search-issues handler once parseQuery
has returned: either the assigned-issues query of the viewer with the
compiled filter as-is (no priority key, lines 184-188), or the general
issues query with the priority filter merged into the filter object
(lines 202-210). -/
structure SearchPlan where
  usesAssignedIssues : Bool
  filter : Filter
  priorityArg : Option (Option PriorityFilter)
deriving DecidableEq, Repr

def searchIssuesPlan (q : String) : Except String SearchPlan :=
  match parseQuery q with
  | .error e => .error e
  | .ok r =>
    if r.isMyIssuesQuery then .ok ⟨true, r.filter, none⟩
    else .ok ⟨false, r.filter, some r.priorityFilter⟩

/-! ## The read-resource handler (lines 230-309) -/

/-- A thrown error, tagged by whether it is a LinearError instance. -/
inductive LinErr where
  | linear (msg : String)
  | plain (msg : String)
deriving DecidableEq, Repr

/-- `handleLinearError` (lines 119-124). -/
def handleLinearError : LinErr → String
  | .linear m => "Linear API Error: " ++ m
  | .plain m => "Error: " ++ m

/-- The anchored URI regular expression of line 239: the fixed scheme, a
nonempty slash-free resource type, a slash, and a nonempty id matched by
dot-plus, which cannot contain line terminators. -/
def jsMatchUri (uri : String) : Option (String × String) :=
  let l := uri.toList
  if l.take 9 = "linear://".toList then
    let rest := l.drop 9
    let rt := rest.takeWhile fun c => !(decide (c = '/'))
    if rt.isEmpty then none
    else
      match rest.drop rt.length with
      | '/' :: idl =>
        if !idl.isEmpty && idl.all (fun c => !(isLineTerm c)) then
          some (String.mk rt, String.mk idl)
        else none
      | _ => none
  else none

inductive RRData where
  | issueDetail (id : String)
  | issueList
  | orgInfo
  | teamDetail (id : String)
  | teamList
deriving DecidableEq, Repr

/-- The outcome of the read-resource handler: a data payload, or an error
payload whose error field comes from handleLinearError. -/
inductive RROutcome where
  | data (d : RRData)
  | error (msg : String)
deriving DecidableEq, Repr

/-- The read-resource handler (lines 236-308).  The upstream issue lookup
is abstracted as a predicate telling whether the id resolves to an issue;
the handler throws a plain error when it does not (lines 249-251), and the
boundary catch converts every thrown error through handleLinearError into
an error payload (lines 304-307). -/
def readResourceRoute (issueExists : String → Bool) (uri : String) : RROutcome :=
  match jsMatchUri uri with
  | none => .error (handleLinearError (.plain ("Invalid Linear URI format: " ++ uri)))
  | some (resourceType, id) =>
    if resourceType = "issues" then
      if id ≠ "" then
        if issueExists id then .data (.issueDetail id)
        else .error (handleLinearError (.plain ("Issue not found: " ++ id)))
      else .data .issueList
    else if resourceType = "organization" then .data .orgInfo
    else if resourceType = "teams" then
      if id ≠ "" then .data (.teamDetail id) else .data .teamList
    else .error (handleLinearError (.plain ("Unknown resource type: " ++ resourceType)))

/-! ## Claims about the query compiler -/

/-- C3: the claim that parseQuery never fails on any input does not hold.
On the query consisting of the bare word priority, the split leaves the
value undefined, the numeric branch is skipped since `isNaN` of undefined
is true, and calling `toLowerCase` on undefined throws a TypeError, so
parseQuery itself throws instead of returning a result. -/
theorem parseQuery_bare_priority_fails :
    parseQuery "priority"
      = .error "TypeError: cannot read toLowerCase of undefined" := by
  rfl

/-- C4: the claim that an unrecognized key-value token is dropped without
feeding the free-text predicate does not hold.  The colon guard of the
default switch branch inspects the key, which after the split never
contains a colon, so a query consisting only of the token foo:bar sets
the free-text predicate to foo even though the query has no bare word. -/
theorem parseQuery_unknown_key_feeds_freetext :
    parseQuery "foo:bar"
      = .ok { filter := { state := .typeNin, team := none, labels := none,
                          orClause := some ⟨"foo", "foo"⟩ },
              isMyIssuesQuery := false,
              priorityFilter := none } := by
  rfl

/-- C6: the compiled state predicate is the default exclusion of the
completed and canceled state types exactly when the query holds no state
or status token, and otherwise it is the name-equality predicate of the
last such token, the default exclusion being entirely replaced; alongside,
the free-text predicate is the title-or-description predicate of the last
token without a recognized key, and absent when there is none. -/
theorem parseQuery_state_default_or_replaced (q : String) (r : ParseResult)
    (h : parseQuery q = .ok r) :
    r.filter.state = (match lastHit stateTokVal (jsTokens q.toList) with
      | none => .typeNin
      | some v => .nameEq v) ∧
    r.filter.orClause = (match lastHit freeKeyOf (jsTokens q.toList) with
      | none => none
      | some k => some ⟨k, k⟩) := by
  unfold parseQuery at h
  rcases hl : parseLoop (jsTokens q.toList) initFilter false none false with e | ⟨f, my, pf, hex⟩
  · rw [hl] at h; cases h
  · rw [hl] at h
    simp only [Except.ok.injEq] at h
    obtain ⟨h1, h2, _, h4⟩ :=
      parseLoop_spec (jsTokens q.toList) initFilter false none false f my pf hex hl
    have hfil : r.filter
        = (if hex = true then { f with state := deleteStateType f.state } else f) := by
      rw [← h]
    constructor
    · rw [hfil]
      cases hlast : lastHit stateTokVal (jsTokens q.toList) with
      | none =>
        have hex0 : hex = false := by rw [h4, hlast]; rfl
        rw [hlast] at h1
        rw [hex0]
        simpa [initFilter] using h1
      | some v =>
        have hex1 : hex = true := by rw [h4, hlast]; rfl
        rw [hlast] at h1
        simp only [] at h1
        rw [hex1]
        simp only [reduceIte]
        show deleteStateType f.state = StateFilter.nameEq v
        rw [h1]
        rfl
    · rw [hfil]
      have hor : ((if hex = true then { f with state := deleteStateType f.state } else f)
          : Filter).orClause = f.orClause := by
        cases hex <;> rfl
      rw [hor, h2]
      cases lastHit freeKeyOf (jsTokens q.toList) <;> simp [initFilter]

theorem parseQuery_state_default_or_replaced_witness :
    ({ filter := { state := .nameEq (some "Done"), team := none, labels := none,
                   orClause := some ⟨"bug", "bug"⟩ },
       isMyIssuesQuery := false, priorityFilter := none } : ParseResult).filter.state
        = .nameEq (some "Done") ∧
    ({ filter := { state := .nameEq (some "Done"), team := none, labels := none,
                   orClause := some ⟨"bug", "bug"⟩ },
       isMyIssuesQuery := false, priorityFilter := none } : ParseResult).filter.orClause
        = some ⟨"bug", "bug"⟩ := by
  have h := parseQuery_state_default_or_replaced "status:Done bug"
    { filter := { state := .nameEq (some "Done"), team := none, labels := none,
                  orClause := some ⟨"bug", "bug"⟩ },
      isMyIssuesQuery := false, priorityFilter := none } (by rfl)
  exact ⟨h.1.trans (by decide), h.2.trans (by decide)⟩

/-- C7: a query containing the token assignee:@me compiles with the
my-issues flag set; the handler then issues the assigned-issues query
with the compiled filter as-is and no priority key, while for any other
query it issues the general issues query with the priority filter merged
into the filter object. -/
theorem searchPlan_my_issues (q : String) (r : ParseResult)
    (h : parseQuery q = .ok r) :
    (("assignee:@me".toList ∈ jsTokens q.toList) → r.isMyIssuesQuery = true) ∧
    searchIssuesPlan q
      = .ok (if r.isMyIssuesQuery then ⟨true, r.filter, none⟩
             else ⟨false, r.filter, some r.priorityFilter⟩) := by
  constructor
  · intro hmem
    unfold parseQuery at h
    rcases hl : parseLoop (jsTokens q.toList) initFilter false none false with e | ⟨f, my, pf, hex⟩
    · rw [hl] at h; cases h
    · rw [hl] at h
      simp only [Except.ok.injEq] at h
      subst h
      obtain ⟨_, _, h3, _⟩ :=
        parseLoop_spec (jsTokens q.toList) initFilter false none false f my pf hex hl
      have hany : (jsTokens q.toList).any isMyTok = true :=
        List.any_eq_true.mpr ⟨_, hmem, by decide⟩
      show my = true
      rw [h3, hany]
      simp
  · unfold searchIssuesPlan
    rw [h]
    by_cases hr : r.isMyIssuesQuery <;> simp [hr]

theorem searchPlan_my_issues_witness :
    ({ filter := { state := .typeNin, team := none, labels := none, orClause := none },
       isMyIssuesQuery := true,
       priorityFilter := some .in12 } : ParseResult).isMyIssuesQuery = true ∧
    searchIssuesPlan "assignee:@me priority:high"
      = .ok ⟨true,
          { state := .typeNin, team := none, labels := none, orClause := none },
          none⟩ := by
  have h := searchPlan_my_issues "assignee:@me priority:high"
    { filter := { state := .typeNin, team := none, labels := none, orClause := none },
      isMyIssuesQuery := true, priorityFilter := some .in12 } (by rfl)
  exact ⟨h.1 (by decide), h.2.trans (by rfl)⟩

/-! ## Digit-string lemmas for the priority filter -/

theorem charDigit_not_space (c : Char) (h : charDigit c = true) :
    isJsSpace c = false := by
  simp only [charDigit, decide_eq_true_eq] at h
  simp only [isJsSpace, jsSpaceCodes, List.mem_cons, List.not_mem_nil, or_false,
    decide_eq_false_iff_not]
  intro hmem
  rcases hmem with h' | h' | h' | h' | h' | h' | h' | h' | h' | h' | h' | h' |
    h' | h' | h' | h' | h' | h' | h' | h' | h' | h' | h' | h' <;> omega

theorem all_digit_dropWhile_space (l : List Char) (h : l.all charDigit = true) :
    l.dropWhile isJsSpace = l := by
  cases l with
  | nil => rfl
  | cons c t =>
    have hc : charDigit c = true := by
      simp only [List.all_cons, Bool.and_eq_true] at h
      exact h.1
    simp [List.dropWhile_cons, charDigit_not_space c hc]

theorem all_digit_takeWhile (l : List Char) (h : l.all charDigit = true) :
    l.takeWhile charDigit = l := by
  induction l with
  | nil => rfl
  | cons c t ih =>
    simp only [List.all_cons, Bool.and_eq_true] at h
    simp [List.takeWhile_cons, h.1, ih h.2]

theorem all_digit_trimJs (l : List Char) (h : l.all charDigit = true) :
    trimJs l = l := by
  have hr : l.reverse.all charDigit = true := by
    simp only [List.all_eq_true] at h ⊢
    intro c hc
    exact h c (List.mem_reverse.mp hc)
  unfold trimJs
  rw [all_digit_dropWhile_space l h, all_digit_dropWhile_space l.reverse hr,
    List.reverse_reverse]

theorem all_digit_decLit (l : List Char) (hne : l ≠ []) (h : l.all charDigit = true) :
    decLit l = true := by
  unfold decLit
  rw [all_digit_takeWhile l h]
  simp [hne, List.drop_length, expOk]

theorem charDigit_bounds (c : Char) (h : charDigit c = true) :
    48 ≤ c.toNat ∧ c.toNat ≤ 57 := by
  simpa only [charDigit, decide_eq_true_eq] using h

theorem all_digit_strNumeric (l : List Char) (hne : l ≠ []) (h : l.all charDigit = true) :
    strNumeric l = true := by
  obtain ⟨c, t, rfl⟩ := List.exists_cons_of_ne_nil hne
  have hc : charDigit c = true := by
    simp only [List.all_cons, Bool.and_eq_true] at h
    exact h.1
  have hcb := charDigit_bounds c hc
  have hplus : ¬ (c :: t).head? = some '+' := by
    simp only [List.head?_cons, Option.some.injEq]
    intro hcc; rw [hcc] at hcb; exact absurd hcb (by decide)
  have hminus : ¬ (c :: t).head? = some '-' := by
    simp only [List.head?_cons, Option.some.injEq]
    intro hcc; rw [hcc] at hcb; exact absurd hcb (by decide)
  have hinf : ¬ (c :: t) = "Infinity".toList := by
    intro hcc
    have : c = 'I' := by
      have := congrArg (fun l => l.head?) hcc
      simpa using this
    rw [this] at hcb; exact absurd hcb (by decide)
  have hdec := all_digit_decLit (c :: t) hne h
  have hio : infOrDec (c :: t) = true := by
    simp [infOrDec, hinf, hdec]
  have hradix : ∀ d : Char, t.head? = some d →
      ¬ (d = 'x' ∨ d = 'X') ∧ ¬ (d = 'o' ∨ d = 'O') ∧ ¬ (d = 'b' ∨ d = 'B') := by
    intro d hd
    have hdd : charDigit d = true := by
      simp only [List.all_cons, Bool.and_eq_true] at h
      cases t with
      | nil => simp at hd
      | cons d2 t2 =>
        simp only [List.head?_cons, Option.some.injEq] at hd
        subst hd
        simp only [List.all_cons, Bool.and_eq_true] at h
        exact h.2.1
    have hdb := charDigit_bounds d hdd
    refine ⟨?_, ?_, ?_⟩ <;>
      rintro (rfl | rfl) <;> exact absurd hdb (by decide)
  unfold strNumeric
  rw [if_neg (by rintro (hp | hm); exact hplus hp; exact hminus hm)]
  cases t with
  | nil =>
    rw [if_neg (by rintro ⟨_, hg | hg⟩ <;> simp at hg)]
    rw [if_neg (by rintro ⟨_, hg | hg⟩ <;> simp at hg)]
    rw [if_neg (by rintro ⟨_, hg | hg⟩ <;> simp at hg)]
    exact hio
  | cons d t2 =>
    have hr := hradix d (by simp)
    have hg1 : ¬ ((c :: d :: t2).head? = some '0' ∧
        ((c :: d :: t2).get? 1 = some 'x' ∨ (c :: d :: t2).get? 1 = some 'X')) := by
      rintro ⟨_, hg | hg⟩ <;> simp only [List.get?_cons_succ, List.get?_cons_zero,
        Option.some.injEq] at hg <;> exact hr.1 (by simp [hg])
    have hg2 : ¬ ((c :: d :: t2).head? = some '0' ∧
        ((c :: d :: t2).get? 1 = some 'o' ∨ (c :: d :: t2).get? 1 = some 'O')) := by
      rintro ⟨_, hg | hg⟩ <;> simp only [List.get?_cons_succ, List.get?_cons_zero,
        Option.some.injEq] at hg <;> exact hr.2.1 (by simp [hg])
    have hg3 : ¬ ((c :: d :: t2).head? = some '0' ∧
        ((c :: d :: t2).get? 1 = some 'b' ∨ (c :: d :: t2).get? 1 = some 'B')) := by
      rintro ⟨_, hg | hg⟩ <;> simp only [List.get?_cons_succ, List.get?_cons_zero,
        Option.some.injEq] at hg <;> exact hr.2.2 (by simp [hg])
    rw [if_neg hg1, if_neg hg2, if_neg hg3]
    exact hio

theorem all_digit_isNaN (s : String) (hne : s.toList ≠ [])
    (h : s.toList.all charDigit = true) : jsIsNaNStr s = false := by
  unfold jsIsNaNStr
  rw [all_digit_trimJs s.toList h]
  have hs : s.toList.isEmpty = false := by
    cases hl : s.toList with
    | nil => exact absurd hl hne
    | cons c t => rfl
  show (if s.toList.isEmpty = true then false else !strNumeric s.toList) = false
  rw [hs]
  simp only [Bool.false_eq_true, if_false, Bool.not_eq_false']
  exact all_digit_strNumeric s.toList hne h

theorem all_digit_parseInt (s : String) (hne : s.toList ≠ [])
    (h : s.toList.all charDigit = true) :
    jsParseInt10 s = some ((digitsToNat s.toList : Nat) : Int) := by
  unfold jsParseInt10
  rw [all_digit_dropWhile_space s.toList h]
  obtain ⟨c, t, hl⟩ := List.exists_cons_of_ne_nil hne
  have hc : charDigit c = true := by
    rw [hl] at h
    simp only [List.all_cons, Bool.and_eq_true] at h
    exact h.1
  have hcb := charDigit_bounds c hc
  have hplus : ¬ s.toList.head? = some '+' := by
    rw [hl]
    simp only [List.head?_cons, Option.some.injEq]
    intro hcc; rw [hcc] at hcb; exact absurd hcb (by decide)
  have hminus : ¬ s.toList.head? = some '-' := by
    rw [hl]
    simp only [List.head?_cons, Option.some.injEq]
    intro hcc; rw [hcc] at hcb; exact absurd hcb (by decide)
  rw [if_neg hplus, if_neg hminus]
  unfold parseIntDigits
  rw [all_digit_takeWhile s.toList h]
  have hs : s.toList.isEmpty = false := by
    cases hl2 : s.toList with
    | nil => exact absurd hl2 hne
    | cons c2 t2 => rfl
  show (if s.toList.isEmpty = true then none
    else some (1 * ((digitsToNat s.toList : Nat) : Int)))
      = some ((digitsToNat s.toList : Nat) : Int)
  rw [hs]
  simp

/-- C5: resolution of a priority token value.  An integer numeral whose
value is at most 4 yields the equality filter on its value, except value
2, which yields the set filter on 1 and 2; under a non-numeric value the
five words map case-insensitively to their ordinals, with high overridden
to the set filter; every other value yields no priority filter. -/
theorem parsePriorityFilter_cases (s : String) :
    (s.toList ≠ [] → s.toList.all charDigit = true → digitsToNat s.toList ≤ 4 →
      parsePriorityFilter (some s)
        = .ok (some (if digitsToNat s.toList = 2 then .in12
                     else .eq (digitsToNat s.toList)))) ∧
    (jsIsNaNStr s = true →
      ((asciiLower s = "no" → parsePriorityFilter (some s) = .ok (some (.eq 0))) ∧
       (asciiLower s = "urgent" → parsePriorityFilter (some s) = .ok (some (.eq 1))) ∧
       (asciiLower s = "high" → parsePriorityFilter (some s) = .ok (some .in12)) ∧
       (asciiLower s = "medium" → parsePriorityFilter (some s) = .ok (some (.eq 3))) ∧
       (asciiLower s = "low" → parsePriorityFilter (some s) = .ok (some (.eq 4))) ∧
       (asciiLower s ∉ ["no", "urgent", "high", "medium", "low"] →
         parsePriorityFilter (some s) = .ok none))) ∧
    (jsIsNaNStr s = false → jsParseInt10 s = none →
      parsePriorityFilter (some s) = .ok none) ∧
    (∀ n : Int, jsIsNaNStr s = false → jsParseInt10 s = some n → (n < 0 ∨ 4 < n) →
      parsePriorityFilter (some s) = .ok none) := by
  refine ⟨?_, ?_, ?_, ?_⟩
  · intro hne hdig hle
    have hnan := all_digit_isNaN s hne hdig
    have hpi := all_digit_parseInt s hne hdig
    simp only [parsePriorityFilter, hnan, hpi, reduceIte]
    have hin : 0 ≤ ((digitsToNat s.toList : Nat) : Int) ∧
        ((digitsToNat s.toList : Nat) : Int) ≤ 4 := by
      constructor
      · exact Int.natCast_nonneg _
      · exact_mod_cast hle
    rw [if_pos hin]
    by_cases h2 : digitsToNat s.toList = 2
    · rw [if_pos (by exact_mod_cast h2), if_pos h2]

    · rw [if_neg (by exact_mod_cast h2), if_neg h2]
  · intro hnan
    refine ⟨?_, ?_, ?_, ?_, ?_, ?_⟩ <;> intro hlow <;>
      simp only [parsePriorityFilter, hnan, Bool.true_eq_false, reduceIte]
    · rw [hlow]; rfl
    · rw [hlow]; rfl
    · rw [hlow]; rfl
    · rw [hlow]; rfl
    · rw [hlow]; rfl
    · simp only [List.mem_cons, List.not_mem_nil, or_false, not_or] at hlow
      obtain ⟨e1, e2, e3, e4, e5⟩ := hlow
      rw [if_neg e3]
      unfold priorityMap
      rw [if_neg e1, if_neg e2, if_neg e3, if_neg e4, if_neg e5]
  · intro hnan hpi
    simp only [parsePriorityFilter, hnan, hpi, reduceIte]
  · intro n hnan hpi hout
    simp only [parsePriorityFilter, hnan, hpi, reduceIte]
    rw [if_neg (by omega)]

theorem parsePriorityFilter_cases_witness :
    parsePriorityFilter (some "2") = .ok (some .in12) ∧
    parsePriorityFilter (some "high") = .ok (some .in12) ∧
    parsePriorityFilter (some "xyz") = .ok none := by
  refine ⟨?_, ?_, ?_⟩
  · exact ((parsePriorityFilter_cases "2").1 (by decide) (by decide)
      (by decide)).trans (by rfl)
  · exact ((parsePriorityFilter_cases "high").2.1 (by rfl)).2.2.1 (by rfl)
  · exact ((parsePriorityFilter_cases "xyz").2.1 (by rfl)).2.2.2.2.2 (by decide)

/-! ## Claims about the read-resource handler -/

/-- C8: the claim that a list-view URI without an id is accepted does not
hold.  The URI regular expression demands a slash and a nonempty id after
the resource type, so the id-less issues and teams URIs are rejected as
invalid, and the list branches of the handler are unreachable. -/
theorem readResource_list_uri_rejected :
    readResourceRoute (fun _ => true) "linear://issues"
        = .error "Error: Invalid Linear URI format: linear://issues" ∧
    readResourceRoute (fun _ => true) "linear://teams"
        = .error "Error: Invalid Linear URI format: linear://teams" ∧
    readResourceRoute (fun _ => true) "linear://organization"
        = .error "Error: Invalid Linear URI format: linear://organization" := by
  refine ⟨rfl, rfl, rfl⟩

/-- C9 counterexample: for an issues URI whose id resolves to no issue,
the error field of the returned payload is not the bare string demanded
by the claim, because handleLinearError prefixes the message. -/
theorem readResource_not_found_counterexample :
    readResourceRoute (fun _ => false) "linear://issues/abc"
        = .error "Error: Issue not found: abc" ∧
    readResourceRoute (fun _ => false) "linear://issues/abc"
        ≠ .error "Issue not found: abc" := by
  refine ⟨rfl, by decide⟩

/-- C9 amended: for every issues URI built from a nonempty id free of line
terminators which the upstream lookup does not resolve, the failure does
not escape the handler boundary; the returned payload is an error payload
whose error field is the string Error: Issue not found: followed by the
id (the thrown message passed through handleLinearError, which prefixes
plain errors with Error and a colon). -/
theorem readResource_not_found_message (issueExists : String → Bool) (id : String)
    (h1 : id ≠ "") (h2 : id.toList.all (fun c => !(isLineTerm c)) = true)
    (h3 : issueExists id = false) :
    readResourceRoute issueExists ("linear://issues/" ++ id)
      = .error ("Error: Issue not found: " ++ id) := by
  obtain ⟨idl⟩ := id
  have hne : idl ≠ [] := by
    intro hc
    exact h1 (by rw [hc])
  have hmatch : jsMatchUri ("linear://issues/" ++ String.mk idl)
      = (if !idl.isEmpty && idl.all (fun c => !(isLineTerm c)) then
          some ("issues", String.mk idl) else none) := rfl
  have hie : idl.isEmpty = false := by
    cases hl : idl with
    | nil => exact absurd hl hne
    | cons c t => rfl
  have h2l : idl.all (fun c => !(isLineTerm c)) = true := h2
  have hcond : (!idl.isEmpty && idl.all fun c => !(isLineTerm c)) = true := by
    rw [hie, h2l]; rfl
  unfold readResourceRoute
  rw [hmatch, hcond]
  simp only [reduceIte]
  rw [if_pos h1, h3]
  rfl

theorem readResource_not_found_message_witness :
    readResourceRoute (fun _ => false) ("linear://issues/" ++ "abc")
      = .error ("Error: Issue not found: " ++ "abc") :=
  readResource_not_found_message (fun _ => false) "abc" (by decide) (by decide) rfl

end LinearMcp
